import Mathlib

/-!
Verification of the core parsing and reconciliation logic of the
obsidian-mtg plugin (`src/renderer.ts`), shallowly embedded in Lean 4.

The TypeScript source works on JavaScript strings and regular expressions;
the embedding works on `String` / `List Char` with hand-written, total
implementations of the specific regular expressions the source uses
(`lineMatchRE`, `setCodesRE`, `lineWithSetCodes`, `blankLineRE`,
`headingMatchRE`, `numberRE`).  JavaScript numbers are modelled as `Nat`
for counts and as `ℚ` for prices (price strings from Scryfall are parsed
with `parseFloat` in the source; we model the parsed value directly, with
`none` standing for a missing/`null` price).  JavaScript `Record`s are
modelled as insertion-ordered association lists.
-/

/-- JavaScript's `\s` character class (the members that can occur in the
plugin's line-based input; lines never contain `\n` after `split("\n")`,
but we keep it for faithfulness). -/
def isJsSpace (c : Char) : Bool :=
  c = ' ' || c = '\t' || c = '\n' || c = '\r' ||
  c = Char.ofNat 11 || c = Char.ofNat 12 || c = Char.ofNat 160 || c = Char.ofNat 65279

/-- JavaScript `String.prototype.trim` on a list of characters. -/
def jsTrimL (l : List Char) : List Char :=
  ((l.dropWhile isJsSpace).reverse.dropWhile isJsSpace).reverse

/-- JavaScript `String.prototype.trim`. -/
def jsTrim (s : String) : String := String.mk (jsTrimL s.data)

/-- `!line.length || line.match(/^\s+$/)`: true iff every character is
whitespace (including the empty line). -/
def isBlankLine (l : List Char) : Bool := l.all isJsSpace

/-- `headingMatchRE = new RegExp("^[^[0-9|" + COMMENT_DELIMITER + "]")`.
Inside the character class the `[` and `|` are literal characters, so the
class excludes `[`, the digits, `|` and `#`. -/
def headingMatch : List Char → Bool
  | [] => false
  | c :: _ => !(decide (c = '[') || c.isDigit || decide (c = '|') || decide (c = '#'))

/-- `line.startsWith(COMMENT_DELIMITER + " ")` with `COMMENT_DELIMITER = "#"`. -/
def commentStart : List Char → Bool
  | c1 :: c2 :: _ => decide (c1 = '#') && decide (c2 = ' ')
  | _ => false

/-- `numberRE = /\d+$/` used with `.match`: the (unanchored-at-the-front)
pattern matches iff the line ends with a digit. -/
def endsWithDigit (l : List Char) : Bool :=
  match l.getLast? with
  | some c => c.isDigit
  | none => false

/-- `[A-Za-z0-9]`. -/
def isAlnum (c : Char) : Bool := c.isAlpha || c.isDigit

/-- JavaScript `\w` = `[A-Za-z0-9_]`. -/
def isWordChar (c : Char) : Bool := c.isAlpha || c.isDigit || c = '_'

/-- The character class `[\w| ,']` appearing in `lineWithSetCodes`. -/
def isCClass (c : Char) : Bool :=
  isWordChar c || c = '|' || c = ' ' || c = ',' || c = Char.ofNat 39

/-- If `setCodesRE = /(\([A-Za-z0-9]{3}\)\s\d+)/` matches at the head of the
list, the length of the (greedy) match; otherwise `none`. -/
def setCodeMatchLen : List Char → Option Nat
  | '(' :: a :: b :: c :: ')' :: w :: rest =>
      if isAlnum a && isAlnum b && isAlnum c && isJsSpace w then
        match rest with
        | [] => none
        | d :: rest2 => if d.isDigit then some (7 + (rest2.takeWhile Char.isDigit).length) else none
      else none
  | _ => none

/-- `lineWithoutComments.replace(setCodesRE, "")`: remove the leftmost
match of `setCodesRE` (JavaScript `replace` with a non-global regex). -/
def replaceFirstSetCode : List Char → List Char
  | [] => []
  | c :: rest =>
      match setCodeMatchLen (c :: rest) with
      | some len => (c :: rest).drop len
      | none => c :: replaceFirstSetCode rest

/-- Does `setCodesRE` match at the head of the list? -/
def matchGroupAt (l : List Char) : Bool := (setCodeMatchLen l).isSome

/-- `\s* G` at the head of the list, where `G` is the `setCodesRE` group. -/
def matchSsG : List Char → Bool
  | [] => false
  | c :: t => matchGroupAt (c :: t) || (isJsSpace c && matchSsG t)

/-- `\s+ G` at the head of the list. -/
def matchSpG : List Char → Bool
  | [] => false
  | c :: t => isJsSpace c && matchSsG t

/-- `[\w| ,']* \s+ G` at the head of the list. -/
def matchCSpG : List Char → Bool
  | [] => false
  | c :: t => matchSpG (c :: t) || (isCClass c && matchCSpG t)

/-- `\s* [\w| ,']* \s+ G` at the head of the list. -/
def matchSCSpG : List Char → Bool
  | [] => false
  | c :: t => matchCSpG (c :: t) || (isJsSpace c && matchSCSpG t)

/-- `\d+ \s+ [\w| ,']* \s+ G` anchored at the head of the list.  Since
`\d` and `\s` are disjoint, `\d+` must consume the maximal digit run. -/
def matchAtPos : List Char → Bool
  | [] => false
  | c :: t =>
      c.isDigit &&
        (match t.dropWhile Char.isDigit with
         | [] => false
         | s :: r => isJsSpace s && matchSCSpG r)

/-- Unanchored search for
`lineWithSetCodes = /(\d+)\s+([\w| ,']*)\s+(\([A-Za-z0-9]{3}\)\s\d+)/`. -/
def searchLineWithSetCodes : List Char → Bool
  | [] => false
  | c :: t => matchAtPos (c :: t) || searchLineWithSetCodes t

/-- Leftmost match of `lineMatchRE = /(\d+)\s(.*)/`: at each start
position the greedy `\d+` must take the maximal digit run (a shorter run
would be followed by a digit, not `\s`); on success the two capture groups
are returned. -/
def lineMatch : List Char → Option (List Char × List Char)
  | [] => none
  | c :: t =>
      if c.isDigit then
        match t.dropWhile Char.isDigit with
        | s :: r => if isJsSpace s then some (c :: t.takeWhile Char.isDigit, r) else lineMatch t
        | [] => lineMatch t
      else lineMatch t

/-- JavaScript `String.prototype.split(sep)` for a one-character separator
(accumulator-based helper). -/
def splitOnCharAux (sep : Char) : List Char → List Char → List (List Char)
  | [], cur => [cur.reverse]
  | c :: rest, cur =>
      if c = sep then cur.reverse :: splitOnCharAux sep rest []
      else splitOnCharAux sep rest (c :: cur)

/-- JavaScript `String.prototype.split(sep)` for a one-character separator. -/
def splitOnChar (sep : Char) (l : List Char) : List (List Char) := splitOnCharAux sep l []

/-- `parseInt` on a non-empty run of decimal digits. -/
def digitsToNat (l : List Char) : Nat := l.foldl (fun n c => n * 10 + (c.toNat - 48)) 0

/-- Modelled from the spec: the card identity normalizer `nameToId` lives in
`src/collection.ts`, which is not among the provided sources.  Per §4.1 of
the spec it is a pure, deterministic normalizer that is case- and
whitespace-insensitive at the ends and maps an already-canonical id to
itself; we model it as trimming followed by ASCII lower-casing. -/
def nameToId (name : String) : String := String.mk ((jsTrimL name.data).map Char.toLower)

/-- Modelled from the spec: `UNKNOWN_CARD` is exported by
`src/collection.ts` (not among the provided sources) and is used as the
fallback label for unresolvable cards. -/
def UNKNOWN_CARD : String := "Unknown Card"

/-- `const DEFAULT_SECTION_NAME = "Deck:"`. -/
def DEFAULT_SECTION_NAME : String := "Deck:"

/-- The ownership ledger `CardCounts`: a JavaScript `Record<string, number>`
modelled as an insertion-ordered association list. -/
abbrev CardCounts := List (String × Nat)

/-- Generic lookup in a JavaScript-object-as-association-list. -/
def objGet {α : Type} : List (String × α) → String → Option α
  | [], _ => none
  | p :: rest, k => if p.1 = k then some p.2 else objGet rest k

/-- Generic `obj[k] = v`: replace the value of an existing key in place,
or append a new key (JavaScript object key order). -/
def objSet {α : Type} : List (String × α) → String → α → List (String × α)
  | [], k, v => [(k, v)]
  | p :: rest, k, v => if p.1 = k then (p.1, v) :: rest else p :: objSet rest k v

/-- `cardCounts[cardId] || 0`. -/
def lookupCounts (cardCounts : CardCounts) (cardId : String) : Nat :=
  match objGet cardCounts cardId with
  | some v => v
  | none => 0

/-- The line types of the `Line` interface (the source declares a
`"number"` type but never constructs it: bare collector-number lines are
emitted with `lineType: "card"` and a `cardNumber`). -/
inductive LineType
  | card
  | section
  | error
  | blank
  | comment
  | number
  deriving DecidableEq

/-- The `Line` interface of `src/renderer.ts`.  All fields except
`lineType` are optional.  `globalCount` is `number | null` in the source;
`none` here stands for both `null` and an absent field — every `"card"`
line the parser emits sets the field explicitly, so the two cases are
never distinguished by the renderer on reachable inputs. -/
structure Line where
  lineType : LineType
  cardCount : Option Nat := none
  globalCount : Option Nat := none
  cardName : Option String := none
  cardNumber : Option String := none
  cardSetCode : Option String := none
  comments : Option (List String) := none
  errors : Option (List String) := none
  text : Option String := none
  deriving DecidableEq

/-- `extractSetCode` of `src/renderer.ts`: drop the leading `#`, split on
commas, and for every `key=value` setting (exactly one `=`) whose trimmed
key is `set`, remember the trimmed value (the last one wins, even if it is
empty). -/
def extractSetCode (value : String) : String :=
  (splitOnChar ',' (value.data.drop 1)).foldl
    (fun setCode setting =>
      match splitOnChar '=' setting with
      | [k, v] => if String.mk (jsTrimL k) = "set" then String.mk (jsTrimL v) else setCode
      | _ => setCode) ""

/-- The card-entry branch of `parseLines` (everything after the blank /
heading / comment / bare-number checks have failed). -/
def parseCardLine (skip : Bool) (cardCounts : CardCounts) (line : String) : Line :=
  let stripped : List Char :=
    if searchLineWithSetCodes line.data then jsTrimL (replaceFirstSetCode line.data) else line.data
  let split :=
    if line.data.contains '#' then
      match splitOnChar '#' line.data with
      | [] => (stripped, ([] : List String))
      | p :: ps => (p, ps.map String.mk)
    else (stripped, ([] : List String))
  match lineMatch split.1 with
  | none => { lineType := LineType.error, errors := some ["invalid line: " ++ line] }
  | some dr =>
      let cardCount := digitsToNat dr.1
      let cardName := String.mk dr.2
      let cardId := nameToId cardName
      let globalCount : Option Nat := if skip then none else some (lookupCounts cardCounts cardId)
      let errors : List String :=
        if cardName.length = 0 then ["Unable to parse card name from: " ++ line] else []
      { lineType := LineType.card, cardCount := some cardCount, globalCount := globalCount,
        cardName := some cardName, comments := some split.2, errors := some errors }

/-- One step of the `rawLines.map` callback in `parseLines`, with the
mutable `currentSetCode` made explicit: returns the emitted `Line` and the
new carried set code. -/
def parseLine (skip : Bool) (cardCounts : CardCounts) (currentSetCode : String) (line : String) :
    Line × String :=
  if isBlankLine line.data then
    ({ lineType := LineType.blank }, currentSetCode)
  else if headingMatch line.data then
    ({ lineType := LineType.section, text := some line }, currentSetCode)
  else if commentStart line.data then
    let setCode := extractSetCode line
    ({ lineType := LineType.comment, comments := some [line] },
     if setCode ≠ "" then setCode else currentSetCode)
  else if endsWithDigit line.data then
    ({ lineType := LineType.card, text := some line, cardNumber := some (jsTrim line),
       cardSetCode := some currentSetCode, cardCount := some 1, globalCount := none },
     currentSetCode)
  else
    (parseCardLine skip cardCounts line, currentSetCode)

/-- The scan of `parseLines`, threading the carried set code. -/
def parseLinesAux (skip : Bool) (cardCounts : CardCounts) (st : String) : List String → List Line
  | [] => []
  | l :: ls =>
      (parseLine skip cardCounts st l).1 ::
        parseLinesAux skip cardCounts (parseLine skip cardCounts st l).2 ls

/-- `parseLines` of `src/renderer.ts`: `shouldSkipGlobalCounts` is set when
the ledger has no keys, and the carried set code starts out empty. -/
def parseLines (rawLines : List String) (cardCounts : CardCounts) : List Line :=
  parseLinesAux cardCounts.isEmpty cardCounts "" rawLines

/-- The carried set code after scanning a prefix of the input. -/
def setCodeAfter (skip : Bool) (cardCounts : CardCounts) (st : String) (lines : List String) :
    String :=
  lines.foldl (fun s l => (parseLine skip cardCounts s l).2) st

/-- A parsed line is a bare collector-number reference: the source emits
these with `lineType: "card"` and the `cardNumber` field set (the regular
card branch never sets `cardNumber`). -/
def isCardByNumber (line : Line) : Bool :=
  decide (line.lineType = LineType.card) && line.cardNumber.isSome

/-- `preferredCurrency ∈ {usd, eur, tix}`. -/
inductive Currency
  | usd
  | eur
  | tix
  deriving DecidableEq

/-- The `decklist` part of `ObsidianPluginMtgSettings` (`src/settings.ts`);
the `collection` part concerns only the excluded CSV-sync collaborator. -/
structure DecklistSettings where
  preferredCurrency : Currency
  showCardNamesAsHyperlinks : Bool
  showCardPreviews : Bool
  showBuylist : Bool
  hidePrices : Bool
  deriving DecidableEq

/-- The per-currency Scryfall price record.  Scryfall serves prices as
strings which the renderer feeds to `parseFloat`; the embedding carries
the parsed rational directly, `none` standing for `null`/absent. -/
structure Prices where
  usd : Option ℚ := none
  eur : Option ℚ := none
  tix : Option ℚ := none
  deriving DecidableEq

/-- The part of Scryfall's `CardData` that the reconciliation logic reads. -/
structure CardData where
  name : Option String := none
  prices : Option Prices := none
  deriving DecidableEq

/-- `Record<string, CardData>` as produced by the fetchers and mutated by
`renderCollection`: a key may be present with an `undefined` value (a
collector-number miss stores `cardDataByCardId[cardId] = undefined`), so
values are `Option CardData`. -/
abbrev CardDataMap := List (String × Option CardData)

/-- `cardDataById[cardId]` with an `undefined` value behaving like an
absent key. -/
def lookupCD (m : CardDataMap) (k : String) : Option CardData :=
  match objGet m k with
  | some v => v
  | none => none

/-- `getCardPrice` of `src/renderer.ts`. -/
def getCardPrice (cardName : String) (cardDataById : CardDataMap)
    (settings : DecklistSettings) : Option ℚ :=
  let cardId := nameToId cardName
  match lookupCD cardDataById cardId with
  | none => none
  | some cardData =>
      if settings.hidePrices then none
      else
        match settings.preferredCurrency with
        | Currency.eur => cardData.prices.bind Prices.eur
        | Currency.tix => cardData.prices.bind Prices.tix
        | Currency.usd => cardData.prices.bind Prices.usd

/-- JavaScript truthiness of an optional string field (`undefined` and the
empty string are both falsy). -/
def truthyStr : Option String → Bool
  | some s => !decide (s = "")
  | none => false

/-- `cardDataBySetNameByCardNumber` lookups in `renderCollection`.  When
the outer set-code key is absent the source would dereference `undefined`
and throw; in the composed pipeline the fetcher creates an (possibly
empty) inner record for every referenced set code, so on reachable inputs
the total `none` result used here agrees with the source. -/
def lookupMeta (metadata : List (String × List (String × CardData))) (setCode number : String) :
    Option CardData :=
  match objGet metadata setCode with
  | some inner => objGet inner number
  | none => none

/-- Accumulator of the `parsedLines.forEach` loop in `renderCollection`:
the card-data-by-id record being built, and the (mutated) lines. -/
structure ResolveAcc where
  cardDataByCardId : CardDataMap
  lines : List Line
  deriving DecidableEq

/-- One iteration of the resolution loop in `renderCollection`
(`line.lineType == "card" && line.cardNumber && line.cardSetCode`). -/
def resolveLine (metadata : List (String × List (String × CardData))) (cardCounts : CardCounts)
    (shouldSkip : Bool) (acc : ResolveAcc) (line : Line) : ResolveAcc :=
  if line.lineType = LineType.card ∧ truthyStr line.cardNumber = true ∧
      truthyStr line.cardSetCode = true then
    let sc := line.cardSetCode.getD ""
    let n := line.cardNumber.getD ""
    let cardData := lookupMeta metadata sc n
    let newName : Option String :=
      match cardData with
      | none => some ("Card not found (" ++ sc ++ "/" ++ n ++ ")")
      | some cd => cd.name
    let cardId := nameToId (newName.getD "")
    let newLine : Line :=
      { line with
        cardName := newName,
        globalCount :=
          if shouldSkip then line.globalCount else some (lookupCounts cardCounts cardId) }
    ⟨objSet acc.cardDataByCardId cardId cardData, acc.lines ++ [newLine]⟩
  else
    ⟨acc.cardDataByCardId, acc.lines ++ [line]⟩

/-- The collection-mode resolution pass of `renderCollection`. -/
def resolveCollection (metadata : List (String × List (String × CardData)))
    (cardCounts : CardCounts) (parsedLines : List Line) : ResolveAcc :=
  parsedLines.foldl (resolveLine metadata cardCounts cardCounts.isEmpty) ⟨[], []⟩

/-- Accumulator of the section-grouping loop in `render`. -/
structure GroupAcc where
  currentSection : String
  sections : List String
  linesBySection : List (String × List Line)

/-- `linesBySection[currentSection].push(line)` (creating the bucket on
first use). -/
def appendToBucket : List (String × List Line) → String → Line → List (String × List Line)
  | [], k, line => [(k, [line])]
  | p :: rest, k, line =>
      if p.1 = k then (p.1, p.2 ++ [line]) :: rest else p :: appendToBucket rest k line

/-- One iteration of the grouping loop in `render` (minus the `idx == 0`
special case, which is handled by the initial accumulator). -/
def groupStep (acc : GroupAcc) (line : Line) : GroupAcc :=
  if line.lineType = LineType.section then
    let name :=
      match line.text with
      | some t => if t = "" then DEFAULT_SECTION_NAME else t
      | none => DEFAULT_SECTION_NAME
    ⟨name, acc.sections ++ [name], acc.linesBySection⟩
  else
    ⟨acc.currentSection, acc.sections, appendToBucket acc.linesBySection acc.currentSection line⟩

/-- The section-grouping loop of `render`: returns the `sections` list (in
push order, duplicates possible) and `linesBySection`.  When the first
line is not a section header, the mode-dependent default section name is
pushed before the loop body runs. -/
def groupLines (isCollection : Bool) (parsedLines : List Line) :
    List String × List (String × List Line) :=
  let init := if isCollection then "Collection: " else DEFAULT_SECTION_NAME
  let acc0 : GroupAcc :=
    match parsedLines with
    | [] => ⟨init, [], []⟩
    | first :: _ =>
        if first.lineType = LineType.section then ⟨init, [], []⟩ else ⟨init, [init], []⟩
  let acc := parsedLines.foldl groupStep acc0
  (acc.sections, acc.linesBySection)

/-- The numeric state mutated while `render` processes one section:
`missingCardCounts` (global), `sectionMissingCardCounts`, and the current
section's entries of `sectionTotalCounts` / `sectionTotalCost`. -/
structure SectionAcc where
  missing : List (String × Nat)
  sectionMissing : List (String × Nat)
  totalCount : Nat
  totalCost : ℚ

/-- `m[k] = (m[k] || 0) + d`. -/
def bump : List (String × Nat) → String → Nat → List (String × Nat)
  | [], k, d => [(k, d)]
  | p :: rest, k, d => if p.1 = k then (p.1, p.2 + d) :: rest else p :: bump rest k d

/-- `missingCardCounts[cardId]`-style read with default `0`. -/
def lookupNat (m : List (String × Nat)) (k : String) : Nat :=
  match objGet m k with
  | some v => v
  | none => 0

/-- `sectionTotalCost[section]`-style read with default `0`. -/
def lookupQ (m : List (String × ℚ)) (k : String) : ℚ :=
  match objGet m k with
  | some v => v
  | none => 0

/-- `Object.values(m).reduce((acc, v) => acc + v, 0)`. -/
def sumValues (m : List (String × Nat)) : Nat := (m.map Prod.snd).sum

/-- The numeric effect of one line-item iteration in `render` (lines
528–603 of `src/renderer.ts`).  `lineGlobalCount` is `-1` exactly when
`globalCount` is `null`, so the deficit branch is taken iff `globalCount`
is a number smaller than `cardCount || 0`.  Comment / blank / error lines
touch no totals. -/
def processLine (cardDataByCardId : CardDataMap) (settings : DecklistSettings)
    (acc : SectionAcc) (line : Line) : SectionAcc :=
  if line.lineType = LineType.card then
    let cardPrice : Option ℚ :=
      if truthyStr line.cardName then
        getCardPrice (line.cardName.getD "") cardDataByCardId settings
      else none
    let lineCardCount := line.cardCount.getD 0
    match line.globalCount with
    | some lineGlobalCount =>
        if lineGlobalCount < lineCardCount then
          let cardId := nameToId (line.cardName.getD "")
          { missing := bump acc.missing cardId (lineCardCount - lineGlobalCount),
            sectionMissing := bump acc.sectionMissing cardId (lineCardCount - lineGlobalCount),
            totalCount := acc.totalCount + lineCardCount,
            totalCost :=
              match cardPrice with
              | some p => acc.totalCost + lineCardCount * p
              | none => acc.totalCost }
        else
          { acc with
            totalCount := acc.totalCount + lineCardCount,
            totalCost :=
              match cardPrice with
              | some p => acc.totalCost + lineCardCount * p
              | none => acc.totalCost }
    | none =>
        { acc with
          totalCount := acc.totalCount + lineCardCount,
          totalCost :=
            match cardPrice with
            | some p => acc.totalCost + lineCardCount * p
            | none => acc.totalCost }
  else acc

/-- The cross-section numeric state of `render`. -/
structure RenderAcc where
  missing : List (String × Nat)
  totalCounts : List (String × Nat)
  totalCosts : List (String × ℚ)

/-- `sections.reduce((acc, curr) => ({...acc, [curr]: 0}), {})`. -/
def initZeroNat (sections : List String) : List (String × Nat) :=
  sections.foldl (fun m s => objSet m s 0) []

/-- `sections.reduce((acc, curr) => ({...acc, [curr]: 0.0}), {})`. -/
def initZeroQ (sections : List String) : List (String × ℚ) :=
  sections.foldl (fun m s => objSet m s 0) []

/-- The body of the `sections.forEach` aggregation of `render` for one
section name: process the section's bucket starting from a fresh
`sectionMissingCardCounts` and the current `sectionTotalCounts` /
`sectionTotalCost` entries, then write the totals back.  A section name
with no bucket is processed as an empty bucket (the source would
dereference `undefined` there and throw, so it produces no aggregates at
all in that case). -/
def renderSectionStep (cardDataByCardId : CardDataMap) (settings : DecklistSettings)
    (linesBySection : List (String × List Line)) (racc : RenderAcc) (sec : String) : RenderAcc :=
  let bucket := (objGet linesBySection sec).getD []
  let sacc :=
    bucket.foldl (processLine cardDataByCardId settings)
      ⟨racc.missing, [], lookupNat racc.totalCounts sec, lookupQ racc.totalCosts sec⟩
  ⟨sacc.missing, objSet racc.totalCounts sec sacc.totalCount,
   objSet racc.totalCosts sec sacc.totalCost⟩

/-- The `sections.forEach` aggregation of `render`, restricted to its
numeric content. -/
def renderSections (cardDataByCardId : CardDataMap) (settings : DecklistSettings)
    (sections : List String) (linesBySection : List (String × List Line)) : RenderAcc :=
  sections.foldl (renderSectionStep cardDataByCardId settings linesBySection)
    ⟨[], initZeroNat sections, initZeroQ sections⟩

/-- Grouping followed by aggregation: the numeric core of `render`. -/
def renderAggregates (cardDataByCardId : CardDataMap) (settings : DecklistSettings)
    (isCollection : Bool) (parsedLines : List Line) : RenderAcc :=
  let g := groupLines isCollection parsedLines
  renderSections cardDataByCardId settings g.1 g.2

/-- `buylistCardIds.length && settings.decklist.showBuylist`: the gate on
building the buylist element. -/
def buylistBuilt (missingCardCounts : List (String × Nat)) (settings : DecklistSettings) : Bool :=
  !missingCardCounts.isEmpty && settings.showBuylist

/-- The cost one missing-card entry adds to `totalCostOfBuylist`:
`parseFloat(getCardPrice(cardInfo.name || "", ...) || "0.00") * countNeeded`
when metadata is present, nothing otherwise. -/
def buylistContribution (cardDataByCardId : CardDataMap) (settings : DecklistSettings)
    (p : String × Nat) : ℚ :=
  match lookupCD cardDataByCardId p.1 with
  | some cardInfo =>
      (getCardPrice (cardInfo.name.getD "") cardDataByCardId settings).getD 0 * p.2
  | none => 0

/-- `totalCostOfBuylist` as accumulated by the `buylistCardIds.forEach`
loop of `render`. -/
def totalCostOfBuylist (cardDataByCardId : CardDataMap) (settings : DecklistSettings)
    (missing : List (String × Nat)) : ℚ :=
  missing.foldl
    (fun acc p =>
      match lookupCD cardDataByCardId p.1 with
      | some cardInfo =>
          acc + (getCardPrice (cardInfo.name.getD "") cardDataByCardId settings).getD 0 * p.2
      | none => acc) 0

/-- The text line the buylist emits for one missing-card entry:
`"<countNeeded> <cardName>"` when metadata is present, otherwise
`"<countNeeded> <cardId-or-UNKNOWN_CARD>"`. -/
def buylistEntryText (cardDataByCardId : CardDataMap) (p : String × Nat) : String :=
  match lookupCD cardDataByCardId p.1 with
  | some cardInfo => toString p.2 ++ " " ++ cardInfo.name.getD ""
  | none => toString p.2 ++ " " ++ (if p.1 = "" then UNKNOWN_CARD else p.1)

/-- Does a processed line register a deficit (the
`lineGlobalCount !== -1 && lineCardCount > lineGlobalCount` branch)? -/
def registersDeficit (line : Line) : Bool :=
  if line.lineType = LineType.card then
    match line.globalCount with
    | some g => decide (g < line.cardCount.getD 0)
    | none => false
  else false

/-- The deficit a processed line contributes (zero when tracking is
disabled or the owned count suffices). -/
def lineDeficit (line : Line) : Nat :=
  if line.lineType = LineType.card then
    match line.globalCount with
    | some g => line.cardCount.getD 0 - g
    | none => 0
  else 0

/-- The card id a deficit is accumulated under. -/
def deficitKey (line : Line) : String := nameToId (line.cardName.getD "")

/-- A concrete settings value used by the evaluation witnesses. -/
def exSettings : DecklistSettings :=
  { preferredCurrency := Currency.usd, showCardNamesAsHyperlinks := false,
    showCardPreviews := false, showBuylist := true, hidePrices := false }

/-- A concrete `SectionAcc` with empty missing maps, as `render` starts
each section iteration. -/
def exAcc : SectionAcc := ⟨[], [], 0, 0⟩

/-- A concrete already-parsed card line: 2 requested, 1 owned. -/
def exCardLine : Line :=
  { lineType := LineType.card, cardCount := some 2, globalCount := some 1,
    cardName := some "Negate", comments := some [], errors := some [] }

/-- A concrete bare collector-number line as `parseLines` emits it after a
`# set=war` directive. -/
def exNumberLine : Line :=
  { lineType := LineType.card, text := some "5", cardNumber := some "5",
    cardSetCode := some "war", cardCount := some 1, globalCount := none }

/-- A concrete card-data record used by the buylist witness. -/
def exCardData : CardDataMap :=
  [("opt", some { name := some "Opt", prices := some { usd := some 2 } })]

/-- The card line produced by parsing `"2 Negate"` with an empty ledger. -/
def exParsedNegate : Line := (parseLine true [] "" "2 Negate").1

theorem comment_not_blank {l : List Char} (h : commentStart l = true) : isBlankLine l = false := by
  match l with
  | [] => simp [commentStart] at h
  | [c] => simp [commentStart] at h
  | c1 :: c2 :: t =>
      simp only [commentStart, Bool.and_eq_true, decide_eq_true_eq] at h
      simp [isBlankLine, h.1, isJsSpace]

theorem comment_not_heading {l : List Char} (h : commentStart l = true) :
    headingMatch l = false := by
  match l with
  | [] => simp [commentStart] at h
  | [c] => simp [commentStart] at h
  | c1 :: c2 :: t =>
      simp only [commentStart, Bool.and_eq_true, decide_eq_true_eq] at h
      simp [headingMatch, h.1]

theorem parseLinesAux_length (skip : Bool) (cardCounts : CardCounts) :
    ∀ (raw : List String) (st : String), (parseLinesAux skip cardCounts st raw).length = raw.length
  | [], _ => rfl
  | l :: ls, st => by
      simp [parseLinesAux, parseLinesAux_length skip cardCounts ls]

theorem parseLinesAux_getElem? (skip : Bool) (cardCounts : CardCounts) :
    ∀ (raw : List String) (st : String) (i : Nat),
      (parseLinesAux skip cardCounts st raw)[i]? =
        (raw[i]?).map
          (fun l => (parseLine skip cardCounts (setCodeAfter skip cardCounts st (raw.take i)) l).1)
  | [], _, i => by simp [parseLinesAux]
  | l :: ls, st, 0 => by simp [parseLinesAux, setCodeAfter]
  | l :: ls, st, i + 1 => by
      simp only [parseLinesAux, List.getElem?_cons_succ, List.take_succ_cons]
      rw [parseLinesAux_getElem? skip cardCounts ls (parseLine skip cardCounts st l).2 i]
      rfl

/-- C2: `parseLines` returns exactly one `Line` per raw input line, in
input order (the `i`-th output is the classification of the `i`-th input
under the carried set-code state accumulated over the preceding lines),
it is total — no input line aborts the parse — and it is deterministic:
parsing equal inputs yields equal outputs. -/
theorem parseLines_total_ordered (rawLines : List String) (cardCounts : CardCounts) :
    (parseLines rawLines cardCounts).length = rawLines.length ∧
    (∀ i : Nat,
      (parseLines rawLines cardCounts)[i]? =
        (rawLines[i]?).map
          (fun l =>
            (parseLine cardCounts.isEmpty cardCounts
              (setCodeAfter cardCounts.isEmpty cardCounts "" (rawLines.take i)) l).1)) ∧
    (∀ (rawLines2 : List String) (cardCounts2 : CardCounts),
      rawLines = rawLines2 → cardCounts = cardCounts2 →
        parseLines rawLines cardCounts = parseLines rawLines2 cardCounts2) := by
  refine ⟨parseLinesAux_length _ _ _ _, fun i => parseLinesAux_getElem? _ _ _ _ i, ?_⟩
  rintro raw2 cc2 rfl rfl
  rfl

/-- Evaluation witness for `parseLines_total_ordered`. -/
theorem parseLines_total_ordered_witness :
    (parseLines ["4 Lightning Bolt"] []).length = 1 ∧
      parseLines ["4 Lightning Bolt"] [] = parseLines ["4 Lightning Bolt"] [] :=
  ⟨(parseLines_total_ordered ["4 Lightning Bolt"] []).1,
   (parseLines_total_ordered ["4 Lightning Bolt"] []).2.2 ["4 Lightning Bolt"] [] rfl rfl⟩

/-- C8: the carried "current set code" starts empty (`parseLines` seeds the
scan with `""`) and one scan step changes it exactly when the line is a
comment line (`"# "` prefix) whose parsed `set=` value is non-empty, in
which case it becomes that value; every other line shape leaves it
unchanged. -/
theorem setCode_state_invariant :
    (∀ (rawLines : List String) (cardCounts : CardCounts),
      parseLines rawLines cardCounts = parseLinesAux cardCounts.isEmpty cardCounts "" rawLines) ∧
    (∀ (skip : Bool) (cardCounts : CardCounts) (st : String) (l : String),
      (parseLine skip cardCounts st l).2 =
        if commentStart l.data = true ∧ extractSetCode l ≠ "" then extractSetCode l else st) := by
  refine ⟨fun _ _ => rfl, fun skip cardCounts st l => ?_⟩
  by_cases hc : commentStart l.data = true
  · have hb := comment_not_blank hc
    have hh := comment_not_heading hc
    by_cases hs : extractSetCode l = "" <;>
      simp [parseLine, hb, hh, hc, hs]
  · replace hc : commentStart l.data = false := by
      cases h : commentStart l.data
      · rfl
      · exact absurd h hc
    by_cases hb : isBlankLine l.data
    · simp [parseLine, hb, hc]
    · by_cases hh : headingMatch l.data
      · simp [parseLine, hb, hh, hc]
      · by_cases hd : endsWithDigit l.data <;>
          simp [parseLine, hb, hh, hc, hd]

theorem parseCardLine_cardNumber (skip : Bool) (cardCounts : CardCounts) (l : String) :
    (parseCardLine skip cardCounts l).cardNumber = none := by
  unfold parseCardLine
  dsimp only
  split <;> rfl

theorem processLine_totalCount (cardDataByCardId : CardDataMap) (settings : DecklistSettings)
    (acc : SectionAcc) (line : Line) :
    (processLine cardDataByCardId settings acc line).totalCount =
      acc.totalCount + (if line.lineType = LineType.card then line.cardCount.getD 0 else 0) := by
  unfold processLine
  by_cases h : line.lineType = LineType.card
  · simp only [h, if_true]
    cases line.globalCount with
    | none => cases hp : (if truthyStr line.cardName then
          getCardPrice (line.cardName.getD "") cardDataByCardId settings else none) <;> simp [hp]
    | some g =>
        by_cases hlt : g < line.cardCount.getD 0 <;>
          cases hp : (if truthyStr line.cardName then
            getCardPrice (line.cardName.getD "") cardDataByCardId settings else none) <;>
            simp [hlt, hp]
  · simp [h]

/-- C5 counterexample: the claim says a line (that is not blank, not a
section header and not a comment) is classified as a bare collector-number
reference iff it consists solely of digits; but `"3 Shock 4"` — which is
in scope and certainly not solely an integer — is classified as a
collector-number reference, because `numberRE = /\d+$/` only requires the
line to end with a digit. -/
theorem number_line_classification_cex :
    isBlankLine "3 Shock 4".data = false ∧
    headingMatch "3 Shock 4".data = false ∧
    commentStart "3 Shock 4".data = false ∧
    "3 Shock 4".data.all Char.isDigit = false ∧
    isCardByNumber (parseLine true [] "" "3 Shock 4").1 = true := by decide

/-- C5 (amended): for a line that is not blank, not a section header and
not a comment line, the parser classifies it as a bare collector-number
reference iff the line ends with a digit (`numberRE = /\d+$/`), and the
emitted record then carries the currently carried set code (possibly
empty) and the trimmed raw line as its number. -/
theorem number_line_classification (skip : Bool) (cardCounts : CardCounts) (st : String)
    (l : String) (h1 : isBlankLine l.data = false) (h2 : headingMatch l.data = false)
    (h3 : commentStart l.data = false) :
    (isCardByNumber (parseLine skip cardCounts st l).1 = true ↔ endsWithDigit l.data = true) ∧
    (endsWithDigit l.data = true →
      (parseLine skip cardCounts st l).1.cardSetCode = some st ∧
      (parseLine skip cardCounts st l).1.cardNumber = some (jsTrim l)) := by
  by_cases hd : endsWithDigit l.data
  · simp [parseLine, h1, h2, h3, hd, isCardByNumber]
  · simp [parseLine, h1, h2, h3, hd, isCardByNumber, parseCardLine_cardNumber]

/-- Evaluation witness for `number_line_classification`. -/
theorem number_line_classification_witness :
    isCardByNumber (parseLine true [] "" "123").1 = true :=
  (number_line_classification true [] "" "123" (by decide) (by decide) (by decide)).1.mpr
    (by decide)

/-- C6 counterexample: the claim says every non-blank line whose first
character is neither a digit nor `#` becomes a section header, but
`headingMatchRE = new RegExp("^[^[0-9|#]")` also excludes `[` and `|`
(they are literal members of the character class), so `"|deck"` — whose
first character is `|`, not a digit and not `#` — is not a section header:
it falls through to the card branch and becomes an error line. -/
theorem heading_classification_cex :
    isBlankLine "|deck".data = false ∧
    "|deck".data.head? = some '|' ∧
    '|'.isDigit = false ∧ '|' ≠ '#' ∧
    (parseLines ["|deck"] []).map Line.lineType = [LineType.error] := by decide

/-- C6 (amended): for every non-blank input line whose first character is
not a digit, not `#`, not `[` and not `|`, the parser classifies it as a
`SectionHeader` whose text is the raw line. -/
theorem heading_classification (skip : Bool) (cardCounts : CardCounts) (st : String)
    (l : String) (c : Char) (t : List Char) (hdata : l.data = c :: t)
    (h1 : isBlankLine l.data = false)
    (hc1 : c.isDigit = false) (hc2 : c ≠ '#') (hc3 : c ≠ '[') (hc4 : c ≠ '|') :
    (parseLine skip cardCounts st l).1 = { lineType := LineType.section, text := some l } := by
  have hh : headingMatch l.data = true := by
    rw [hdata]; simp [headingMatch, hc1, hc2, hc3, hc4]
  simp [parseLine, h1, hh]

/-- Evaluation witness for `heading_classification`. -/
theorem heading_classification_witness :
    (parseLine true [] "" "Sideboard:").1 =
      { lineType := LineType.section, text := some "Sideboard:" } :=
  heading_classification true [] "" "Sideboard:" 'S' "ideboard:".data (by decide) (by decide)
    (by decide) (by decide) (by decide) (by decide)

/-- C7 counterexample: parsing `["3 Shock # great removal"]` yields a card
line whose name is `"Shock "` — the remainder after the count and the
single whitespace separator, *untrimmed*, so it keeps the trailing space
before the `#` — not `"Shock"` as the claim states (the source sets
`cardName = lineParts[2]` without calling `trim`). -/
theorem shock_line_cex :
    (parseLines ["3 Shock # great removal"] []).map Line.cardName = [some "Shock "] ∧
    (parseLines ["3 Shock # great removal"] []).map Line.cardName ≠ [some "Shock"] := by decide

/-- C7 (amended): for any ledger, parsing the single line
`"3 Shock # great removal"` yields exactly one card line with count `3`,
name `"Shock "` (the untrimmed remainder), comments `[" great removal"]`
and no errors. -/
theorem shock_line (cardCounts : CardCounts) :
    parseLines ["3 Shock # great removal"] cardCounts =
      [{ lineType := LineType.card, cardCount := some 3,
         globalCount :=
           if cardCounts.isEmpty then none
           else some (lookupCounts cardCounts (nameToId "Shock ")),
         cardName := some "Shock ", comments := some [" great removal"],
         errors := some [] }] := by
  cases cardCounts with
  | nil => rfl
  | cons p cs => rfl

/-- C10: every line the parser classifies as a bare collector-number
reference is emitted with `cardCount = 1` and `globalCount = null`, and
(before any collection-mode resolution) processing such a line adds
exactly `1` to its section's running total requested count. -/
theorem number_line_count_one (skip : Bool) (cardCounts : CardCounts) (st : String) (l : String)
    (h1 : isBlankLine l.data = false) (h2 : headingMatch l.data = false)
    (h3 : commentStart l.data = false) (h4 : endsWithDigit l.data = true) :
    ((parseLine skip cardCounts st l).1.cardCount = some 1 ∧
     (parseLine skip cardCounts st l).1.globalCount = none) ∧
    (∀ (cardDataByCardId : CardDataMap) (settings : DecklistSettings) (acc : SectionAcc),
      (processLine cardDataByCardId settings acc (parseLine skip cardCounts st l).1).totalCount =
        acc.totalCount + 1) := by
  have hline : (parseLine skip cardCounts st l).1 =
      { lineType := LineType.card, text := some l, cardNumber := some (jsTrim l),
        cardSetCode := some st, cardCount := some 1, globalCount := none } := by
    simp [parseLine, h1, h2, h3, h4]
  refine ⟨by rw [hline]; exact ⟨rfl, rfl⟩, fun cd s acc => ?_⟩
  rw [hline, processLine_totalCount]
  rfl

/-- Evaluation witness for `number_line_count_one`. -/
theorem number_line_count_one_witness :
    (parseLine true [] "" "5").1.cardCount = some 1 ∧
      (parseLine true [] "" "5").1.globalCount = none :=
  (number_line_count_one true [] "" "5" (by decide) (by decide) (by decide) (by decide)).1

theorem sumValues_bump : ∀ (m : List (String × Nat)) (k : String) (d : Nat),
    sumValues (bump m k d) = sumValues m + d
  | [], k, d => by simp [bump, sumValues]
  | p :: rest, k, d => by
      by_cases h : p.1 = k
      · simp [bump, h, sumValues]
        omega
      · simp [bump, h, sumValues] at *
        have := sumValues_bump rest k d
        simp [sumValues] at this
        omega

theorem lookupNat_cons (p : String × Nat) (rest : List (String × Nat)) (k' : String) :
    lookupNat (p :: rest) k' = if p.1 = k' then p.2 else lookupNat rest k' := by
  by_cases h : p.1 = k' <;> simp [lookupNat, objGet, h]

theorem lookupNat_bump : ∀ (m : List (String × Nat)) (k : String) (d : Nat) (k' : String),
    lookupNat (bump m k d) k' = lookupNat m k' + if k = k' then d else 0
  | [], k, d, k' => by
      by_cases h : k = k' <;> simp [bump, lookupNat, objGet, h]
  | p :: rest, k, d, k' => by
      by_cases h : p.1 = k
      · simp only [bump, if_pos h]
        rw [lookupNat_cons, lookupNat_cons]
        by_cases h' : p.1 = k'
        · have hkk : k = k' := by rw [← h, h']
          simp [h', hkk]
        · have hkk : ¬ k = k' := by intro e; exact h' (by rw [h, e])
          simp [h', hkk]
      · simp only [bump, if_neg h]
        rw [lookupNat_cons, lookupNat_cons, lookupNat_bump rest k d k']
        by_cases h' : p.1 = k'
        · have hkk : ¬ k = k' := by intro e; exact h (by rw [e, ← h'])
          simp [h', hkk]
        · simp [h']

theorem registersDeficit_card {l : Line} (h : registersDeficit l = true) :
    l.lineType = LineType.card := by
  by_cases hc : l.lineType = LineType.card
  · exact hc
  · simp [registersDeficit, hc] at h

theorem lineDeficit_eq_zero {l : Line} (h : registersDeficit l = false) : lineDeficit l = 0 := by
  by_cases hc : l.lineType = LineType.card
  · cases hg : l.globalCount with
    | none => simp [lineDeficit, hc, hg]
    | some g =>
        simp [registersDeficit, hc, hg] at h
        simp [lineDeficit, hc, hg]
        omega
  · simp [lineDeficit, hc]

theorem processLine_sectionMissing (cardDataByCardId : CardDataMap) (settings : DecklistSettings)
    (acc : SectionAcc) (l : Line) :
    (processLine cardDataByCardId settings acc l).sectionMissing =
      if registersDeficit l = true then bump acc.sectionMissing (deficitKey l) (lineDeficit l)
      else acc.sectionMissing := by
  by_cases h : l.lineType = LineType.card
  · cases hg : l.globalCount with
    | none => simp [processLine, registersDeficit, h, hg]
    | some g =>
        by_cases hlt : g < l.cardCount.getD 0 <;>
          simp [processLine, registersDeficit, lineDeficit, deficitKey, h, hg, hlt]
  · simp [processLine, registersDeficit, h]

theorem processLine_missing (cardDataByCardId : CardDataMap) (settings : DecklistSettings)
    (acc : SectionAcc) (l : Line) :
    (processLine cardDataByCardId settings acc l).missing =
      if registersDeficit l = true then bump acc.missing (deficitKey l) (lineDeficit l)
      else acc.missing := by
  by_cases h : l.lineType = LineType.card
  · cases hg : l.globalCount with
    | none => simp [processLine, registersDeficit, h, hg]
    | some g =>
        by_cases hlt : g < l.cardCount.getD 0 <;>
          simp [processLine, registersDeficit, lineDeficit, deficitKey, h, hg, hlt]
  · simp [processLine, registersDeficit, h]

theorem foldl_processLine_sectionMissing_sum (cardDataByCardId : CardDataMap)
    (settings : DecklistSettings) :
    ∀ (bucket : List Line) (acc : SectionAcc),
      sumValues ((bucket.foldl (processLine cardDataByCardId settings) acc).sectionMissing) =
        sumValues acc.sectionMissing + (bucket.map lineDeficit).sum
  | [], acc => by simp
  | l :: rest, acc => by
      rw [List.foldl_cons,
        foldl_processLine_sectionMissing_sum cardDataByCardId settings rest,
        processLine_sectionMissing]
      cases h : registersDeficit l with
      | true => simp [sumValues_bump]; omega
      | false => simp [lineDeficit_eq_zero h]

theorem foldl_processLine_sectionMissing_lookup (cardDataByCardId : CardDataMap)
    (settings : DecklistSettings) (id : String) :
    ∀ (bucket : List Line) (acc : SectionAcc),
      lookupNat ((bucket.foldl (processLine cardDataByCardId settings) acc).sectionMissing) id =
        lookupNat acc.sectionMissing id +
          ((bucket.filter
            (fun l => decide (l.lineType = LineType.card) && decide (deficitKey l = id))).map
              lineDeficit).sum
  | [], acc => by simp
  | l :: rest, acc => by
      rw [List.foldl_cons,
        foldl_processLine_sectionMissing_lookup cardDataByCardId settings id rest,
        processLine_sectionMissing]
      cases h : registersDeficit l with
      | true =>
          have hcard := registersDeficit_card h
          rw [if_pos rfl, lookupNat_bump]
          by_cases hk : deficitKey l = id
          · have hin : (decide (l.lineType = LineType.card) && decide (deficitKey l = id))
                = true := by simp [hcard, hk]
            simp [List.filter_cons, hin, hk, hcard]
            omega
          · have hin : (decide (l.lineType = LineType.card) && decide (deficitKey l = id))
                = false := by simp [hk]
            simp [List.filter_cons, hin, hk]
      | false =>
          rw [if_neg (by simp)]
          by_cases hin : (decide (l.lineType = LineType.card) && decide (deficitKey l = id)) = true
          · simp [List.filter_cons, hin, lineDeficit_eq_zero h]
          · simp [List.filter_cons, hin]

/-- C1: for every card line with tracking enabled (`globalCount` not
null), the `render` loop registers a deficit exactly when the requested
count exceeds the owned count, the registered deficit equals
`max(0, count - owned)`, and after a section's lines are processed
(starting, as in the source, from an empty `sectionMissingCardCounts`) the
section's total missing count is the sum of its lines' deficits, with the
per-card-id entry accumulating the deficits of all card lines of that id
(repeated lines for the same card accumulate additively). -/
theorem deficit_invariant (cardDataByCardId : CardDataMap) (settings : DecklistSettings)
    (bucket : List Line) (acc : SectionAcc) (hacc : acc.sectionMissing = []) :
    (∀ line ∈ bucket, line.lineType = LineType.card → ∀ g, line.globalCount = some g →
      ((registersDeficit line = true) ↔ g < line.cardCount.getD 0) ∧
      ((lineDeficit line : ℤ) = max 0 ((line.cardCount.getD 0 : ℤ) - (g : ℤ)))) ∧
    sumValues ((bucket.foldl (processLine cardDataByCardId settings) acc).sectionMissing) =
      (bucket.map lineDeficit).sum ∧
    (∀ id : String,
      lookupNat ((bucket.foldl (processLine cardDataByCardId settings) acc).sectionMissing) id =
        ((bucket.filter
          (fun l => decide (l.lineType = LineType.card) && decide (deficitKey l = id))).map
            lineDeficit).sum) := by
  refine ⟨?_, ?_, ?_⟩
  · intro line _ hcard g hg
    constructor
    · simp [registersDeficit, hcard, hg]
    · simp only [lineDeficit, hcard, if_true, hg]
      omega
  · rw [foldl_processLine_sectionMissing_sum, hacc]
    simp [sumValues]
  · intro id
    rw [foldl_processLine_sectionMissing_lookup, hacc]
    simp [lookupNat, objGet]

/-- Evaluation witness for `deficit_invariant`: a section holding a single
card line requesting 2 copies with 1 owned has total missing count
`2 - 1 = 1`. -/
theorem deficit_invariant_witness :
    sumValues (([exCardLine].foldl (processLine [] exSettings) exAcc).sectionMissing) =
      ([exCardLine].map lineDeficit).sum ∧
    (registersDeficit exCardLine = true ↔ 1 < 2) :=
  ⟨(deficit_invariant [] exSettings [exCardLine] exAcc rfl).2.1,
   ((deficit_invariant [] exSettings [exCardLine] exAcc rfl).1 exCardLine (by decide) (by decide)
      1 (by decide)).1⟩

theorem parseCardLine_globalCount_skip (cardCounts : CardCounts) (l : String) :
    (parseCardLine true cardCounts l).globalCount = none := by
  unfold parseCardLine
  dsimp only
  split <;> rfl

theorem parseLine_globalCount_skip (cardCounts : CardCounts) (st : String) (l : String) :
    (parseLine true cardCounts st l).1.globalCount = none := by
  unfold parseLine
  by_cases h1 : isBlankLine l.data <;> by_cases h2 : headingMatch l.data <;>
    by_cases h3 : commentStart l.data <;> by_cases h4 : endsWithDigit l.data <;>
      simp [h1, h2, h3, h4, parseCardLine_globalCount_skip]

theorem parseLinesAux_globalCount_skip (cardCounts : CardCounts) :
    ∀ (raw : List String) (st : String),
      ∀ line ∈ parseLinesAux true cardCounts st raw, line.globalCount = none
  | [], st => by simp [parseLinesAux]
  | l :: ls, st => by
      intro line hline
      simp only [parseLinesAux, List.mem_cons] at hline
      rcases hline with h | h
      · rw [h]; exact parseLine_globalCount_skip cardCounts st l
      · exact parseLinesAux_globalCount_skip cardCounts ls _ line h

theorem resolveLine_globalCount_skip (metadata : List (String × List (String × CardData)))
    (cardCounts : CardCounts) (acc : ResolveAcc) (line : Line)
    (hacc : ∀ l ∈ acc.lines, l.globalCount = none) (hline : line.globalCount = none) :
    ∀ l ∈ (resolveLine metadata cardCounts true acc line).lines, l.globalCount = none := by
  intro l hl
  by_cases hc : line.lineType = LineType.card ∧ truthyStr line.cardNumber = true ∧
      truthyStr line.cardSetCode = true
  · simp only [resolveLine, if_pos hc, List.mem_append, List.mem_singleton] at hl
    rcases hl with h | h
    · exact hacc l h
    · rw [h]; simpa using hline
  · simp only [resolveLine, if_neg hc, List.mem_append, List.mem_singleton] at hl
    rcases hl with h | h
    · exact hacc l h
    · rw [h]; exact hline

theorem foldl_resolveLine_globalCount_skip (metadata : List (String × List (String × CardData)))
    (cardCounts : CardCounts) :
    ∀ (lines : List Line) (acc : ResolveAcc),
      (∀ l ∈ acc.lines, l.globalCount = none) → (∀ l ∈ lines, l.globalCount = none) →
      ∀ l ∈ (lines.foldl (resolveLine metadata cardCounts true) acc).lines, l.globalCount = none
  | [], acc, hacc, _ => hacc
  | x :: rest, acc, hacc, hlines => by
      rw [List.foldl_cons]
      exact foldl_resolveLine_globalCount_skip metadata cardCounts rest _
        (resolveLine_globalCount_skip metadata cardCounts acc x hacc
          (hlines x (List.mem_cons_self _ _)))
        (fun l hl => hlines l (List.mem_cons_of_mem _ hl))

theorem registersDeficit_none {l : Line} (h : l.globalCount = none) :
    registersDeficit l = false := by
  by_cases hc : l.lineType = LineType.card <;> simp [registersDeficit, hc, h]

theorem foldl_processLine_missing_none (cardDataByCardId : CardDataMap)
    (settings : DecklistSettings) :
    ∀ (bucket : List Line) (acc : SectionAcc),
      (∀ l ∈ bucket, l.globalCount = none) →
      (bucket.foldl (processLine cardDataByCardId settings) acc).missing = acc.missing
  | [], acc, _ => rfl
  | l :: rest, acc, h => by
      rw [List.foldl_cons,
        foldl_processLine_missing_none cardDataByCardId settings rest _
          (fun x hx => h x (List.mem_cons_of_mem _ hx)),
        processLine_missing,
        if_neg (by simp [registersDeficit_none (h l (List.mem_cons_self _ _))])]

theorem appendToBucket_mem :
    ∀ (m : List (String × List Line)) (k : String) (x : Line) (s : String) (l : Line),
      l ∈ (objGet (appendToBucket m k x) s).getD [] → l ∈ (objGet m s).getD [] ∨ l = x
  | [], k, x, s, l => by
      by_cases h : k = s <;> simp [appendToBucket, objGet, h]
  | p :: rest, k, x, s, l => by
      by_cases h : p.1 = k
      · simp only [appendToBucket, if_pos h]
        by_cases h' : p.1 = s
        · simp only [objGet, if_pos h', Option.getD_some]
          intro hmem
          rcases List.mem_append.mp hmem with hm | hm
          · exact Or.inl hm
          · exact Or.inr (List.mem_singleton.mp hm)
        · simp only [objGet, if_neg h']
          exact fun hm => Or.inl hm
      · simp only [appendToBucket, if_neg h]
        by_cases h' : p.1 = s
        · simp only [objGet, if_pos h', Option.getD_some]
          exact fun hm => Or.inl hm
        · simp only [objGet, if_neg h']
          exact appendToBucket_mem rest k x s l

theorem groupStep_mem (P : Line → Prop) (acc : GroupAcc) (line : Line)
    (hacc : ∀ s l, l ∈ (objGet acc.linesBySection s).getD [] → P l) (hline : P line) :
    ∀ s l, l ∈ (objGet (groupStep acc line).linesBySection s).getD [] → P l := by
  intro s l hl
  unfold groupStep at hl
  by_cases hsec : line.lineType = LineType.section
  · simp only [if_pos hsec] at hl
    exact hacc s l hl
  · simp only [if_neg hsec] at hl
    rcases appendToBucket_mem _ _ _ _ _ hl with h | h
    · exact hacc s l h
    · rw [h]; exact hline

theorem groupFold_mem (P : Line → Prop) :
    ∀ (lines : List Line) (acc : GroupAcc),
      (∀ s l, l ∈ (objGet acc.linesBySection s).getD [] → P l) → (∀ l ∈ lines, P l) →
      ∀ s l, l ∈ (objGet ((lines.foldl groupStep acc).linesBySection) s).getD [] → P l
  | [], _, hacc, _ => hacc
  | x :: rest, acc, hacc, hlines => by
      rw [List.foldl_cons]
      exact groupFold_mem P rest _
        (groupStep_mem P acc x hacc (hlines x (List.mem_cons_self _ _)))
        (fun l hl => hlines l (List.mem_cons_of_mem _ hl))

theorem groupLines_mem (isCollection : Bool) (lines : List Line) (s : String) (l : Line)
    (hl : l ∈ (objGet (groupLines isCollection lines).2 s).getD []) : l ∈ lines := by
  have base : ∀ (acc0 : GroupAcc), acc0.linesBySection = [] →
      l ∈ (objGet ((lines.foldl groupStep acc0).linesBySection) s).getD [] → l ∈ lines := by
    intro acc0 h0
    exact groupFold_mem (· ∈ lines) lines acc0
      (by rw [h0]; intro s' l' hl'; simp [objGet] at hl') (fun x hx => hx) s l
  unfold groupLines at hl
  cases lines with
  | nil => exact base _ rfl hl
  | cons first rest =>
      by_cases hf : first.lineType = LineType.section
      · simp only [hf, if_pos] at hl
        exact base _ rfl hl
      · simp only [hf, if_neg] at hl
        exact base _ rfl hl

theorem renderSections_missing_none (cardDataByCardId : CardDataMap)
    (settings : DecklistSettings) (linesBySection : List (String × List Line))
    (hall : ∀ sec l, l ∈ (objGet linesBySection sec).getD [] → l.globalCount = none) :
    ∀ (sections : List String) (racc : RenderAcc),
      (sections.foldl (renderSectionStep cardDataByCardId settings linesBySection) racc).missing =
        racc.missing
  | [], _ => rfl
  | sec :: rest, racc => by
      rw [List.foldl_cons,
        renderSections_missing_none cardDataByCardId settings linesBySection hall rest]
      unfold renderSectionStep
      dsimp only
      exact foldl_processLine_missing_none cardDataByCardId settings _ _
        (fun x hx => hall sec x hx)

/-- C3: with an empty ownership ledger, `parseLines` gives every line a
null `globalCount`, collection-mode resolution never changes that
(`shouldSkipGlobalCounts` is set), so the global missing-card mapping
produced by the renderer is empty and no buylist is built. -/
theorem ledger_absent_invariant (rawLines : List String)
    (metadata : List (String × List (String × CardData))) (cardDataByCardId : CardDataMap)
    (settings : DecklistSettings) (isCollection : Bool) :
    (∀ line ∈ parseLines rawLines [], line.globalCount = none) ∧
    (∀ line ∈ (resolveCollection metadata [] (parseLines rawLines [])).lines,
      line.globalCount = none) ∧
    (renderAggregates cardDataByCardId settings isCollection
      ((resolveCollection metadata [] (parseLines rawLines [])).lines)).missing = [] ∧
    buylistBuilt
      ((renderAggregates cardDataByCardId settings isCollection
        ((resolveCollection metadata [] (parseLines rawLines [])).lines)).missing)
      settings = false := by
  have hparsed : ∀ line ∈ parseLines rawLines [], line.globalCount = none :=
    parseLinesAux_globalCount_skip [] rawLines ""
  have hresolved : ∀ line ∈ (resolveCollection metadata [] (parseLines rawLines [])).lines,
      line.globalCount = none :=
    foldl_resolveLine_globalCount_skip metadata [] (parseLines rawLines []) ⟨[], []⟩
      (by intro l hl; simp at hl) hparsed
  have hmissing : (renderAggregates cardDataByCardId settings isCollection
      ((resolveCollection metadata [] (parseLines rawLines [])).lines)).missing = [] := by
    unfold renderAggregates renderSections
    exact renderSections_missing_none cardDataByCardId settings _
      (fun sec l hl => hresolved l (groupLines_mem _ _ _ _ hl)) _ _
  refine ⟨hparsed, hresolved, hmissing, ?_⟩
  rw [hmissing]
  simp [buylistBuilt]

/-- Evaluation witness for `ledger_absent_invariant`. -/
theorem ledger_absent_invariant_witness :
    (renderAggregates [] exSettings false
      ((resolveCollection [] [] (parseLines ["2 Negate"] [])).lines)).missing = [] ∧
    exParsedNegate.globalCount = none :=
  ⟨(ledger_absent_invariant ["2 Negate"] [] [] exSettings false).2.2.1,
   (ledger_absent_invariant ["2 Negate"] [] [] exSettings false).1 exParsedNegate (by decide)⟩

theorem objGet_objSet_self {α : Type} : ∀ (m : List (String × α)) (k : String) (v : α),
    objGet (objSet m k v) k = some v
  | [], k, v => by simp [objSet, objGet]
  | p :: rest, k, v => by
      by_cases h : p.1 = k
      · simp [objSet, objGet, h]
      · simp [objSet, objGet, h, objGet_objSet_self rest k v]

theorem totalCostOfBuylist_fold (cardDataByCardId : CardDataMap) (settings : DecklistSettings) :
    ∀ (missing : List (String × Nat)) (a : ℚ),
      missing.foldl
        (fun acc p =>
          match lookupCD cardDataByCardId p.1 with
          | some cardInfo =>
              acc + (getCardPrice (cardInfo.name.getD "") cardDataByCardId settings).getD 0 * p.2
          | none => acc) a =
        a + (missing.map (buylistContribution cardDataByCardId settings)).sum
  | [], a => by simp
  | p :: rest, a => by
      cases h : lookupCD cardDataByCardId p.1 with
      | none =>
          simp only [List.foldl_cons, h]
          rw [totalCostOfBuylist_fold cardDataByCardId settings rest a]
          simp [buylistContribution, h]
      | some ci =>
          simp only [List.foldl_cons, h]
          rw [totalCostOfBuylist_fold cardDataByCardId settings rest _]
          simp only [List.map_cons, List.sum_cons, buylistContribution, h]
          ring

/-- C4: the buylist is built only when `showBuylist` is set and the global
missing-card mapping is non-empty; its total cost is the sum over all
entries of their contributions, where an entry with resolvable metadata
and a resolvable price contributes `price * quantity` and an entry without
resolvable metadata contributes zero while still appearing in the buylist
text, labeled by its card id (or the unknown-card marker when the id is
empty). -/
theorem buylist_invariant (cardDataByCardId : CardDataMap) (settings : DecklistSettings)
    (missing : List (String × Nat)) :
    (buylistBuilt missing settings = true ↔ settings.showBuylist = true ∧ missing ≠ []) ∧
    totalCostOfBuylist cardDataByCardId settings missing =
      (missing.map (buylistContribution cardDataByCardId settings)).sum ∧
    (∀ p ∈ missing, ∀ cardInfo, lookupCD cardDataByCardId p.1 = some cardInfo →
      ∀ price, getCardPrice (cardInfo.name.getD "") cardDataByCardId settings = some price →
        buylistContribution cardDataByCardId settings p = price * p.2) ∧
    (∀ p ∈ missing, lookupCD cardDataByCardId p.1 = none →
      buylistContribution cardDataByCardId settings p = 0 ∧
      buylistEntryText cardDataByCardId p =
        toString p.2 ++ " " ++ (if p.1 = "" then UNKNOWN_CARD else p.1)) := by
  refine ⟨?_, ?_, ?_, ?_⟩
  · cases missing with
    | nil => simp [buylistBuilt]
    | cons p rest => simp [buylistBuilt]
  · unfold totalCostOfBuylist
    rw [totalCostOfBuylist_fold]
    simp
  · intro p _ cardInfo hci price hpr
    simp [buylistContribution, hci, hpr]
  · intro p _ h
    exact ⟨by simp [buylistContribution, h], by simp [buylistEntryText, h]⟩

/-- Evaluation witness for `buylist_invariant`: an entry whose id has no
metadata contributes zero, and the buylist gate for a non-empty missing
map follows `showBuylist`. -/
theorem buylist_invariant_witness :
    buylistContribution exCardData exSettings ("mystery", 3) = 0 ∧
    (buylistBuilt [("opt", 2)] exSettings = true ↔
      exSettings.showBuylist = true ∧ ([("opt", 2)] : List (String × Nat)) ≠ []) :=
  ⟨((buylist_invariant exCardData exSettings [("opt", 2), ("mystery", 3)]).2.2.2 ("mystery", 3)
      (by decide) (by decide)).1,
   (buylist_invariant exCardData exSettings [("opt", 2)]).1⟩

/-- C9 counterexample: the line `"5"` parsed with no set directive is a
bare collector-number line (its carried set code is the empty string);
its (set code, number) pair has no entry in the empty metadata mapping,
yet collection-mode resolution leaves its name unset — the synthesized
`"Card not found (/5)"` placeholder never appears — because the
`line.cardNumber && line.cardSetCode` truthiness check skips lines whose
set code is empty. -/
theorem collector_number_miss_cex :
    (parseLines ["5"] []).map (fun l => (l.cardNumber, l.cardSetCode)) = [(some "5", some "")] ∧
    lookupMeta [] "" "5" = none ∧
    ((resolveCollection [] [] (parseLines ["5"] [])).lines).map Line.cardName = [none] := by
  decide

/-- C9 (amended): for every bare collector-number line with a *non-empty*
set code and number whose (set code, number) pair has no entry in the
supplied metadata, collection-mode resolution raises no error (the
line's `errors` field is unchanged): the line's name becomes the
synthesized placeholder `"Card not found (<setCode>/<number>)"`, the
placeholder's id is recorded with no card data so no price resolves for
it, and the line still adds its full `cardCount` to its section's total
requested count. -/
theorem collector_number_miss (metadata : List (String × List (String × CardData)))
    (cardCounts : CardCounts) (shouldSkip : Bool) (acc : ResolveAcc) (line : Line) (n sc : String)
    (h1 : line.lineType = LineType.card) (h2 : line.cardNumber = some n) (h3 : n ≠ "")
    (h4 : line.cardSetCode = some sc) (h5 : sc ≠ "")
    (h6 : lookupMeta metadata sc n = none) :
    resolveLine metadata cardCounts shouldSkip acc line =
      ⟨objSet acc.cardDataByCardId (nameToId ("Card not found (" ++ sc ++ "/" ++ n ++ ")")) none,
       acc.lines ++
         [{ line with
            cardName := some ("Card not found (" ++ sc ++ "/" ++ n ++ ")"),
            globalCount :=
              if shouldSkip then line.globalCount
              else some (lookupCounts cardCounts
                (nameToId ("Card not found (" ++ sc ++ "/" ++ n ++ ")"))) }]⟩ ∧
    (∀ settings : DecklistSettings,
      getCardPrice ("Card not found (" ++ sc ++ "/" ++ n ++ ")")
        (resolveLine metadata cardCounts shouldSkip acc line).cardDataByCardId settings = none) ∧
    (∀ (cardDataByCardId : CardDataMap) (settings : DecklistSettings) (acc2 : SectionAcc),
      (processLine cardDataByCardId settings acc2
        { line with
          cardName := some ("Card not found (" ++ sc ++ "/" ++ n ++ ")"),
          globalCount :=
            if shouldSkip then line.globalCount
            else some (lookupCounts cardCounts
              (nameToId ("Card not found (" ++ sc ++ "/" ++ n ++ ")"))) }).totalCount =
        acc2.totalCount + line.cardCount.getD 0) ∧
    ({ line with
       cardName := some ("Card not found (" ++ sc ++ "/" ++ n ++ ")"),
       globalCount :=
         if shouldSkip then line.globalCount
         else some (lookupCounts cardCounts
           (nameToId ("Card not found (" ++ sc ++ "/" ++ n ++ ")"))) } : Line).errors =
      line.errors := by
  have hcond : line.lineType = LineType.card ∧ truthyStr line.cardNumber = true ∧
      truthyStr line.cardSetCode = true :=
    ⟨h1, by simp [truthyStr, h2, h3], by simp [truthyStr, h4, h5]⟩
  have hmain : resolveLine metadata cardCounts shouldSkip acc line =
      ⟨objSet acc.cardDataByCardId (nameToId ("Card not found (" ++ sc ++ "/" ++ n ++ ")")) none,
       acc.lines ++
         [{ line with
            cardName := some ("Card not found (" ++ sc ++ "/" ++ n ++ ")"),
            globalCount :=
              if shouldSkip then line.globalCount
              else some (lookupCounts cardCounts
                (nameToId ("Card not found (" ++ sc ++ "/" ++ n ++ ")"))) }]⟩ := by
    have hcond2 : line.lineType = LineType.card ∧ truthyStr (some n) = true ∧
        truthyStr (some sc) = true := ⟨h1, by simp [truthyStr, h3], by simp [truthyStr, h5]⟩
    simp only [resolveLine, h2, h4, Option.getD_some, h6]
    rw [if_pos hcond2]
  refine ⟨hmain, ?_, ?_, rfl⟩
  · intro settings
    rw [hmain]
    simp [getCardPrice, lookupCD, objGet_objSet_self]
  · intro cardDataByCardId settings acc2
    rw [processLine_totalCount]
    simp [h1]

/-- Evaluation witness for `collector_number_miss`. -/
theorem collector_number_miss_witness :
    ((resolveLine [] [] true ⟨[], []⟩ exNumberLine).lines).map Line.cardName =
      [some "Card not found (war/5)"] := by
  have h := (collector_number_miss [] [] true ⟨[], []⟩ exNumberLine "5" "war" rfl rfl
    (by decide) rfl (by decide) rfl).1
  rw [h]
  rfl

